import Mathlib

/-!
# Verification of the encounter state machine

A shallow embedding of the combat core of the repository
(systems/condition_system.py, systems/concentration_system.py,
systems/action_economy.py, systems/initiative_system.py,
systems/combat_manager.py) together with theorems settling the frozen
claims about it.

Conventions of the embedding:
* Python dictionaries keyed by strings become association lists
  (`List (String × β)`); assignment replaces the binding in place or
  appends a fresh one, deletion drops the key, exactly as a dict does.
* Python sets of strings become duplicate-free insertion into a
  `List String`; membership, insertion and removal use set semantics.
* Wall-clock instants (time.time()) and the global combat round are
  passed explicitly as integer parameters; the code only adds and
  compares them.
* The external d20 collaborator (perform_d20_test) is an injected
  oracle function, as the spec requires it to be.
* print / logging calls carry no state and are dropped.
-/

namespace DSystem

/-- Duration kinds of systems/condition_system.py (class DurationType). -/
inductive DurationType where
  | rounds
  | minutes
  | hours
  | save_ends
  | permanent
  | until_dispelled
deriving DecidableEq, Repr

/-- The per-condition record stored in the module-level dict
`_creature_conditions[target][condition_name]` by add_condition. -/
structure CondData where
  duration_type : DurationType
  duration_value : Int
  save_dc : Option Int
  save_ability : Option String
  source_name : String
  applied_time : Int
  applied_round : Int
deriving DecidableEq, Repr

/-- The fragment of creatures/base.py Creature that the four state-machine
subsystems read and write: identity, aliveness, speed, the legacy
condition-name set mirror, the legacy concentrating_on attribute, and this
slice of the `_creature_conditions` registry for this creature. -/
structure Creature where
  name : String
  is_alive : Bool
  speed : Int
  movement_for_turn : Int
  conditions : List String
  concentrating_on : Option String
  enhanced_conditions : List (String × CondData)
deriving DecidableEq, Repr

/-- Python dict assignment `m[k] = v`: replace the binding in place if the
key is present, otherwise append it. -/
def dict_assign {β : Type} (k : String) (v : β) : List (String × β) → List (String × β)
  | [] => [(k, v)]
  | (k1, v1) :: rest => if k1 = k then (k, v) :: rest else (k1, v1) :: dict_assign k v rest

/-- Python dict deletion `del m[k]` (dict keys are unique, so dropping every
binding of the key models it). -/
def dict_drop {β : Type} (k : String) (m : List (String × β)) : List (String × β) :=
  m.filter (fun p => p.1 != k)

/-- Python dict lookup `m.get(k)`. -/
def dict_lookup {β : Type} (k : String) : List (String × β) → Option β
  | [] => none
  | (k1, v1) :: rest => if k1 = k then some v1 else dict_lookup k rest

/-- Python str.lower() on the ASCII condition names the system uses,
character for character. -/
def py_lower (s : String) : String := ⟨s.data.map Char.toLower⟩

/-- Python set insertion `s.add(x)`. -/
def set_insert (s : List String) (x : String) : List String :=
  if s.contains x then s else x :: s

/-- Python set removal `s.remove(x)` (the element is unique in a set, so
dropping every occurrence models it). -/
def set_remove (s : List String) (x : String) : List String :=
  s.filter (fun c => c != x)

/-- condition_system.has_condition: membership of the lower-cased name in
the legacy condition set of the target. -/
def has_condition (target : Creature) (condition_name : String) : Bool :=
  target.conditions.contains (py_lower condition_name)

/-- Python truthiness of an optional string (None and "" are falsy). -/
def truthy_opt_str : Option String → Bool
  | none => false
  | some s => s != ""

/-- Python truthiness of an optional integer (None and 0 are falsy). -/
def truthy_opt_int : Option Int → Bool
  | none => false
  | some v => v != 0

/-! ## Concentration system (systems/concentration_system.py) -/

/-- The ConcentrationEffect record (the arbitrary effect_data payload is
never read by the core and is elided; max_end_time is derived from
start_time and duration_seconds where it is used). -/
structure ConcentrationEffect where
  effect_name : String
  caster_name : String
  duration_seconds : Int
  spell_level : Int
  start_time : Int
deriving DecidableEq, Repr

/-- ConcentrationEffect.is_expired: a non-positive duration means
permanent-until-broken, otherwise compare now against start + duration. -/
def ConcentrationEffect.is_expired (e : ConcentrationEffect) (now : Int) : Bool :=
  if e.duration_seconds ≤ 0 then false
  else decide (e.start_time + e.duration_seconds ≤ now)

/-- The module-level dict ConcentrationSystem._active_concentrations,
keyed by caster identity (modelled by caster name). -/
abbrev ConcMap := List (String × ConcentrationEffect)

/-- ConcentrationSystem.is_concentrating. -/
def is_concentrating (conc : ConcMap) (caster : String) : Bool :=
  (dict_lookup caster conc).isSome

/-- ConcentrationSystem.break_concentration: delete the entry if present
(the effect-specific cleanup hook only touches collaborator creature
attributes such as temporary bonuses, which are outside this core). -/
def break_concentration (conc : ConcMap) (caster : String) : Bool × ConcMap :=
  if is_concentrating conc caster then (true, dict_drop caster conc)
  else (false, conc)

/-- ConcentrationSystem.can_concentrate: refused when incapacitated,
dead, or unconscious (the hasattr guards of the source hold in the
embedding, where every creature exposes its condition set and alive flag). -/
def can_concentrate (caster : Creature) : Bool :=
  !(has_condition caster "incapacitated") && caster.is_alive &&
    !(has_condition caster "unconscious")

/-- ConcentrationSystem.start_concentration: reject if the caster cannot
concentrate; otherwise break any existing effect, then store the new one
(spell_level falls back to 1 when None or 0, per `spell_level or 1`). -/
def start_concentration (conc : ConcMap) (caster : Creature) (effect_name : String)
    (duration_seconds : Int) (spell_level : Option Int) (now : Int) : Bool × ConcMap :=
  if !(can_concentrate caster) then (false, conc)
  else
    let conc1 := if is_concentrating conc caster.name then
        (break_concentration conc caster.name).2
      else conc
    let level := match spell_level with
      | none => 1
      | some v => if v = 0 then 1 else v
    let effect : ConcentrationEffect :=
      { effect_name := effect_name, caster_name := caster.name,
        duration_seconds := duration_seconds, spell_level := level,
        start_time := now }
    (true, dict_assign caster.name effect conc1)

/-- The save DC computed in ConcentrationSystem.check_concentration_save:
`dc = min(30, max(10, damage_taken // 2))`. -/
def concentration_dc (damage_taken : Nat) : Nat :=
  min 30 (max 10 (damage_taken / 2))

/-- ConcentrationSystem.check_concentration_save: no-op when not
concentrating; otherwise roll the injected Constitution save against the
computed DC and break concentration on failure. Returns whether
concentration is maintained, and the updated registry. -/
def check_concentration_save (conc : ConcMap) (caster : String) (damage_taken : Nat)
    (save : String → Int → Bool) : Bool × ConcMap :=
  if !(is_concentrating conc caster) then (true, conc)
  else
    let dc := concentration_dc damage_taken
    if save "con" (dc : Int) then (true, conc)
    else (false, (break_concentration conc caster).2)

/-- The breaking-condition set of
ConcentrationSystem.handle_condition_change. -/
def breaking_conditions : List String :=
  ["incapacitated", "unconscious", "dead", "stunned", "paralyzed"]

/-- ConcentrationSystem.handle_condition_change: on addition of a breaking
condition, break the concentration of that creature if it has one. -/
def handle_condition_change (conc : ConcMap) (creature_name : String)
    (condition : String) (added : Bool) : ConcMap :=
  if !added then conc
  else if breaking_conditions.contains (py_lower condition) then
    if is_concentrating conc creature_name then
      (break_concentration conc creature_name).2
    else conc
  else conc

/-- ConcentrationSystem.update_concentrations (the periodic sweep):
collect the casters whose effect expired or who can no longer concentrate
(capability is the delegated per-caster query, injected), then break each. -/
def update_concentrations (conc : ConcMap) (can : String → Bool) (now : Int) : ConcMap :=
  let expired := conc.filter (fun p => p.2.is_expired now || !(can p.1))
  expired.foldl (fun acc p => (break_concentration acc p.1).2) conc

/-! ## Condition lifecycle registry (systems/condition_system.py) -/

/-- The per-condition defaults of add_condition (the condition_defaults
dict): optional default duration type, duration value and save ability. -/
structure ConditionDefault where
  dt : Option DurationType
  dv : Option Int
  ability : Option String

/-- The condition_defaults table of add_condition, entry for entry. -/
def condition_defaults : String → ConditionDefault
  | "stunned" => ⟨some .save_ends, none, some "con"⟩
  | "poisoned" => ⟨some .save_ends, none, some "con"⟩
  | "frightened" => ⟨some .save_ends, none, some "wis"⟩
  | "charmed" => ⟨some .save_ends, none, some "wis"⟩
  | "paralyzed" => ⟨some .save_ends, none, some "con"⟩
  | "blinded" => ⟨some .save_ends, none, some "con"⟩
  | "deafened" => ⟨some .save_ends, none, some "con"⟩
  | "restrained" => ⟨some .permanent, none, none⟩
  | "grappled" => ⟨some .permanent, none, none⟩
  | "prone" => ⟨some .permanent, none, none⟩
  | "incapacitated" => ⟨some .rounds, some 1, none⟩
  | "unconscious" => ⟨some .permanent, none, none⟩
  | _ => ⟨none, none, none⟩

mutual

/-- condition_system.add_condition. Lower-case the name, fill unset
arguments from the per-condition defaults (duration type PERMANENT,
duration value 0, source name "Unknown" when even the table has none),
store/overwrite the enhanced record, mirror into the legacy set, apply the
cascading implication effects, then notify the concentration tracker.
The extra fuel argument bounds the implication recursion (the implication
chains of the source have depth at most 2); fuel 0 is never reached. -/
def add_condition_fuel (fuel : Nat) (target : Creature) (conc : ConcMap)
    (condition_name : String) (duration_type : Option DurationType)
    (duration_value : Option Int) (save_dc : Option Int)
    (save_ability : Option String) (source_name : Option String)
    (now : Int) (current_round : Int) : Creature × ConcMap :=
  match fuel with
  | 0 => (target, conc)
  | f + 1 =>
    let n := py_lower condition_name
    let defaults := condition_defaults n
    let dt := duration_type.getD (defaults.dt.getD DurationType.permanent)
    let dv := duration_value.getD (defaults.dv.getD 0)
    let sa := match save_ability with
      | some a => some a
      | none => defaults.ability
    let sn := source_name.getD "Unknown"
    let data : CondData :=
      { duration_type := dt, duration_value := dv, save_dc := save_dc,
        save_ability := sa, source_name := sn, applied_time := now,
        applied_round := current_round }
    let target1 : Creature :=
      { target with
        enhanced_conditions := dict_assign n data target.enhanced_conditions,
        conditions := set_insert target.conditions n }
    let res := apply_condition_effects f target1 conc n now current_round
    (res.1, handle_condition_change res.2 res.1.name n true)
termination_by 2 * fuel + 1

/-- condition_system._apply_condition_effects: incapacitated clears the
legacy concentrating_on attribute; stunned implies incapacitated;
unconscious implies incapacitated and prone; the implied conditions go
through the same add_condition path when not already present. -/
def apply_condition_effects (fuel : Nat) (target : Creature) (conc : ConcMap)
    (n : String) (now : Int) (current_round : Int) : Creature × ConcMap :=
  if n = "incapacitated" then ({ target with concentrating_on := none }, conc)
  else if n = "prone" then (target, conc)
  else if n = "stunned" then
    if has_condition target "incapacitated" then (target, conc)
    else add_condition_fuel fuel target conc "incapacitated" none none none none none
      now current_round
  else if n = "unconscious" then
    let res1 :=
      if has_condition target "incapacitated" then (target, conc)
      else add_condition_fuel fuel target conc "incapacitated" none none none none none
        now current_round
    if has_condition res1.1 "prone" then res1
    else add_condition_fuel fuel res1.1 res1.2 "prone" none none none none none
      now current_round
  else (target, conc)
termination_by 2 * fuel + 2

end

/-- add_condition at the fuel bound that covers every implication chain of
the source (stunned and unconscious recurse at most one level down, onto
conditions that recurse no further). -/
def add_condition (target : Creature) (conc : ConcMap) (condition_name : String)
    (duration_type : Option DurationType := none) (duration_value : Option Int := none)
    (save_dc : Option Int := none) (save_ability : Option String := none)
    (source_name : Option String := none) (now : Int := 0) (current_round : Int := 0) :
    Creature × ConcMap :=
  add_condition_fuel 3 target conc condition_name duration_type duration_value save_dc
    save_ability source_name now current_round

/-- condition_system.remove_condition: when the lower-cased name is in the
legacy set, delete it from the enhanced registry and from the legacy set
and report true; otherwise report false with no change
(_remove_condition_effects deliberately changes no state: its only branch,
for unconscious, is a pass). -/
def remove_condition (target : Creature) (condition_name : String) : Creature × Bool :=
  let n := py_lower condition_name
  if target.conditions.contains n then
    ({ target with
        enhanced_conditions := dict_drop n target.enhanced_conditions,
        conditions := set_remove target.conditions n },
     true)
  else (target, false)

/-- condition_system.check_condition_prevents_action, branch for branch:
incapacitated blocks action, bonus action and reaction; stunned blocks
movement; unconscious blocks all four. -/
def check_condition_prevents_action (target : Creature) (action_type : String) :
    Bool × String :=
  if target.conditions.isEmpty then (false, "")
  else if has_condition target "incapacitated" &&
      ["action", "bonus_action", "reaction"].contains action_type then
    (true, target.name ++ " is incapacitated and cannot take actions")
  else if has_condition target "stunned" && action_type == "movement" then
    (true, target.name ++ " is stunned and cannot move")
  else if has_condition target "unconscious" &&
      ["action", "bonus_action", "reaction", "movement"].contains action_type then
    (true, target.name ++ " is unconscious and cannot act")
  else (false, "")

/-- condition_system.process_end_of_turn_saves: for each stored condition
whose duration type is SAVE_ENDS and whose save ability and save DC are
both set and truthy, invoke the injected saving-throw collaborator; remove
the conditions whose save succeeded and return how many were removed. -/
def process_end_of_turn_saves (target : Creature) (save : String → Int → Bool) :
    Creature × Nat :=
  let to_remove := (target.enhanced_conditions.filter (fun p =>
      p.2.duration_type == DurationType.save_ends &&
      truthy_opt_str p.2.save_ability && truthy_opt_int p.2.save_dc &&
      save (p.2.save_ability.getD "") (p.2.save_dc.getD 0))).map (fun p => p.1)
  (to_remove.foldl (fun acc n => (remove_condition acc n).1) target, to_remove.length)

/-- condition_system._is_condition_expired: ROUNDS expire once the current
round reaches applied_round + duration_value; MINUTES and HOURS compare
wall-clock time against applied_time plus the converted duration;
SAVE_ENDS, PERMANENT and UNTIL_DISPELLED never expire here. -/
def is_condition_expired (data : CondData) (current_time : Int) (current_round : Int) :
    Bool :=
  match data.duration_type with
  | .permanent => false
  | .until_dispelled => false
  | .save_ends => false
  | .rounds => decide (data.applied_round + data.duration_value ≤ current_round)
  | .minutes => decide (data.applied_time + data.duration_value * 60 ≤ current_time)
  | .hours => decide (data.applied_time + data.duration_value * 3600 ≤ current_time)

/-- The per-creature body of update_condition_durations: collect this
expired condition names of this creature, then remove each through
remove_condition; also report how many were removed. -/
def sweep_creature (current_time : Int) (current_round : Int) (c : Creature) :
    Creature × Nat :=
  let expired := (c.enhanced_conditions.filter (fun p =>
      is_condition_expired p.2 current_time current_round)).map (fun p => p.1)
  (expired.foldl (fun acc n => (remove_condition acc n).1) c, expired.length)

/-- condition_system.update_condition_durations: advance the global combat
round by rounds_passed when positive, then expire and remove conditions
for every tracked creature; returns the updated creatures, the new global
round, and the number of removed conditions. -/
def update_condition_durations (rounds_passed : Int) (current_time : Int)
    (current_round : Int) (world : List Creature) : List Creature × Int × Nat :=
  let r := if 0 < rounds_passed then current_round + rounds_passed else current_round
  let results := world.map (sweep_creature current_time r)
  (results.map (fun p => p.1), r, (results.map (fun p => p.2)).sum)

/-! ## Action economy (systems/action_economy.py) -/

/-- The ActionEconomy record for one creature: the per-turn used flags plus
the creature it belongs to (the source stores a reference; movement budget
lives on the creature as movement_for_turn). -/
structure ActionEconomy where
  creature : Creature
  action_used : Bool
  bonus_action_used : Bool
  reaction_used : Bool
  movement_used : Int
  free_object_interaction_used : Bool
deriving DecidableEq, Repr

/-- ActionEconomy.reset_turn: clear every used flag and reset the
movement budget of the creature to its speed. -/
def ActionEconomy.reset_turn (e : ActionEconomy) : ActionEconomy :=
  { creature := { e.creature with movement_for_turn := e.creature.speed },
    action_used := false, bonus_action_used := false, reaction_used := false,
    movement_used := 0, free_object_interaction_used := false }

/-- ActionEconomy.can_take_action: only the used flag and aliveness are
consulted. -/
def ActionEconomy.can_take_action (e : ActionEconomy) : Bool :=
  !e.action_used && e.creature.is_alive

/-- ActionEconomy.can_take_bonus_action. -/
def ActionEconomy.can_take_bonus_action (e : ActionEconomy) : Bool :=
  !e.bonus_action_used && e.creature.is_alive

/-- ActionEconomy.can_take_reaction. -/
def ActionEconomy.can_take_reaction (e : ActionEconomy) : Bool :=
  !e.reaction_used && e.creature.is_alive

/-- ActionEconomy.use_action: fail (no mutation) when can_take_action is
false, otherwise mark the flag and succeed. The action label is only
printed. -/
def ActionEconomy.use_action (e : ActionEconomy) (_action_name : String) :
    Bool × ActionEconomy :=
  if !e.can_take_action then (false, e)
  else (true, { e with action_used := true })

/-- ActionEconomy.use_bonus_action. -/
def ActionEconomy.use_bonus_action (e : ActionEconomy) (_action_name : String) :
    Bool × ActionEconomy :=
  if !e.can_take_bonus_action then (false, e)
  else (true, { e with bonus_action_used := true })

/-- ActionEconomy.use_reaction. -/
def ActionEconomy.use_reaction (e : ActionEconomy) (_reaction_name : String) :
    Bool × ActionEconomy :=
  if !e.can_take_reaction then (false, e)
  else (true, { e with reaction_used := true })

/-! ## Initiative and turn sequencing (systems/initiative_system.py) -/

/-- InitiativeResult: a creature together with its rolled initiative total
and the surprised flag. -/
structure InitiativeResult where
  creature : Creature
  initiative_count : Int
  was_surprised : Bool
deriving DecidableEq, Repr

/-- The sort key of InitiativeSystem.determine_turn_order:
`(x.initiative_count, x.creature.name)`. -/
def initiative_key (r : InitiativeResult) : Int × String :=
  (r.initiative_count, r.creature.name)

/-- Python string comparison: lexicographic on code points. -/
def chars_le : List Char → List Char → Bool
  | [], _ => true
  | _ :: _, [] => false
  | c1 :: r1, c2 :: r2 =>
    if c1.toNat < c2.toNat then true
    else if c2.toNat < c1.toNat then false
    else chars_le r1 r2

/-- Python `s1 <= s2` on strings. -/
def py_str_le (s1 s2 : String) : Bool := chars_le s1.data s2.data

/-- Non-strict lexicographic order on the Python tuple key
(integer first, then string). -/
def key_le (k1 k2 : Int × String) : Prop :=
  k1.1 < k2.1 ∨ (k1.1 = k2.1 ∧ py_str_le k1.2 k2.2 = true)

instance (k1 k2 : Int × String) : Decidable (key_le k1 k2) := by
  unfold key_le
  infer_instance

/-- The ordering of the output list of determine_turn_order. Python
`sorted(key=..., reverse=True)` places a before b exactly when the key of
a is at least the key of b; it is the stable sort for this total preorder. -/
def turn_order_rel (a b : InitiativeResult) : Prop :=
  key_le (initiative_key b) (initiative_key a)

instance : DecidableRel turn_order_rel := fun a b => by
  unfold turn_order_rel
  infer_instance

/-- InitiativeSystem.determine_turn_order:
`sorted(results, key=lambda x: (x.initiative_count, x.creature.name), reverse=True)`.
Python sorted is the stable sort by the comparison captured in
turn_order_rel, and the stable sort by a total preorder is unique, so
insertion sort computes the same list. -/
def determine_turn_order (results : List InitiativeResult) : List InitiativeResult :=
  List.insertionSort turn_order_rel results

/-- InitiativeTracker: the turn cursor (order, index, round, active flag). -/
structure InitiativeTracker where
  turn_order : List InitiativeResult
  current_turn_index : Nat
  round_number : Int
  combat_active : Bool
deriving DecidableEq, Repr

/-- InitiativeTracker.get_current_creature: none when combat is not active
or the order is empty, otherwise the creature at the cursor. -/
def get_current_creature (t : InitiativeTracker) : Option Creature :=
  if !t.combat_active || t.turn_order.isEmpty then none
  else (t.turn_order.get? t.current_turn_index).map (fun r => r.creature)

/-- InitiativeTracker.end_combat: deactivate and reset the cursor. -/
def end_combat_tracker (_t : InitiativeTracker) : InitiativeTracker :=
  { turn_order := [], current_turn_index := 0, round_number := 1,
    combat_active := false }

/-- InitiativeTracker._should_end_combat: end when at most one living
creature remains in the order. -/
def should_end_combat (t : InitiativeTracker) : Bool :=
  (t.turn_order.filter (fun r => r.creature.is_alive)).length ≤ 1

/-- The while loop of InitiativeTracker.skip_dead_creatures, with explicit
fuel (each iteration either increments the cursor or wraps it to 0 and
stops, so length + 1 steps always suffice): while combat is active, the
cursor is in range and the creature at the cursor is dead, advance the
cursor; on reaching the end of the order, wrap to 0, bump the round, and
stop (the loop breaks there even when the first entry is also dead). -/
def skip_dead_fuel : Nat → InitiativeTracker → InitiativeTracker
  | 0, t => t
  | f + 1, t =>
    let dead_at_cursor := t.combat_active &&
      decide (t.current_turn_index < t.turn_order.length) &&
      (match t.turn_order.get? t.current_turn_index with
       | some r => !r.creature.is_alive
       | none => false)
    if dead_at_cursor then
      let t1 := { t with current_turn_index := t.current_turn_index + 1 }
      if t1.turn_order.length ≤ t1.current_turn_index then
        { t1 with current_turn_index := 0, round_number := t1.round_number + 1 }
      else skip_dead_fuel f t1
    else t

/-- InitiativeTracker.skip_dead_creatures. -/
def skip_dead_creatures (t : InitiativeTracker) : InitiativeTracker :=
  skip_dead_fuel (t.turn_order.length + 1) t

/-- InitiativeTracker.next_turn: no-op when not active; advance the
cursor, wrapping to index 0 and bumping the round at the end of the order;
then end combat (returning none) when at most one living creature remains,
otherwise return the creature now at the cursor. -/
def next_turn (t : InitiativeTracker) : Option Creature × InitiativeTracker :=
  if !t.combat_active then (none, t)
  else
    let t1 := { t with current_turn_index := t.current_turn_index + 1 }
    let t2 := if t1.turn_order.length ≤ t1.current_turn_index then
        { t1 with current_turn_index := 0, round_number := t1.round_number + 1 }
      else t1
    if should_end_combat t2 then (none, end_combat_tracker t2)
    else (get_current_creature t2, t2)

/-! ## Combat orchestration (systems/combat_manager.py) -/

/-- CombatState.teams: team name to the creatures on that team. -/
abbrev Teams := List (String × List Creature)

/-- The living-team count of CombatManager._check_combat_end, computed
from CombatState.get_teams_status. -/
def living_team_count (teams : Teams) : Nat :=
  (teams.filter (fun p => !(p.2.filter (fun c => c.is_alive)).isEmpty)).length

/-- CombatManager._check_combat_end: combat ends when at most one team has
a living member. -/
def check_combat_end (teams : Teams) : Bool :=
  living_team_count teams ≤ 1

/-- CombatManager.advance_turn on the tracker state: no-op when combat is
not active; run end-of-turn cleanup for the current creature (which only
garbage-collects economies and logs, touching no tracker state), call
skip_dead_creatures, end combat when at most one team lives, and otherwise
delegate to next_turn. The creature returned, if any, is the one whose
turn is then started. -/
def advance_turn (teams : Teams) (t : InitiativeTracker) :
    Option Creature × InitiativeTracker :=
  if !t.combat_active then (none, t)
  else
    let t1 := skip_dead_creatures t
    if check_combat_end teams then (none, end_combat_tracker t1)
    else next_turn t1

/-- A creature with the given name and aliveness and no conditions: the
shape in which combat participants enter an encounter (used as concrete
test input for the claims). -/
def mk_creature (name : String) (alive : Bool) : Creature :=
  { name := name, is_alive := alive, speed := 30, movement_for_turn := 30,
    conditions := [], concentrating_on := none, enhanced_conditions := [] }

/-! ## Observables and concrete fixtures -/

/-- The association-list bindings whose key is the given string (for a
dict there is at most one). -/
def bindings_for {β : Type} (m : List (String × β)) (k : String) : List (String × β) :=
  m.filter (fun p => p.1 == k)

/-- Well-formedness of a dict model: its keys are pairwise distinct. -/
def nodup_keys {β : Type} (m : List (String × β)) : Prop :=
  (m.map (fun p => p.1)).Nodup

/-- The at-most-one-effect-per-caster registry invariant. -/
def unique_casters (conc : ConcMap) : Prop := nodup_keys conc

instance {β : Type} (m : List (String × β)) : Decidable (nodup_keys m) := by
  unfold nodup_keys
  infer_instance

instance (conc : ConcMap) : Decidable (unique_casters conc) := by
  unfold unique_casters
  infer_instance

/-- An alive fighter that holds the incapacitated condition (C2 input). -/
def incap_fighter : Creature :=
  { mk_creature "Fighter" true with conditions := ["incapacitated"] }

/-- A fresh action economy for the incapacitated fighter, as produced at
the start of its turn. -/
def incap_economy : ActionEconomy :=
  { creature := incap_fighter, action_used := false, bonus_action_used := false,
    reaction_used := false, movement_used := 0,
    free_object_interaction_used := false }

/-- A concentration effect held by the caster named Wiz (C3 and C5 input). -/
def wiz_effect : ConcentrationEffect :=
  { effect_name := "bless", caster_name := "Wiz", duration_seconds := 60,
    spell_level := 1, start_time := 0 }

/-- Initiative entries for the C4 scenario: Archer (alive), Bandit (dead),
Cleric (alive), Dragon (alive), in initiative order. -/
def c4_order : List InitiativeResult :=
  [⟨mk_creature "Archer" true, 20, false⟩, ⟨mk_creature "Bandit" false, 15, false⟩,
   ⟨mk_creature "Cleric" true, 10, false⟩, ⟨mk_creature "Dragon" true, 5, false⟩]

/-- The C4 tracker: an active encounter at round 1 with the cursor on
Archer. -/
def c4_tracker : InitiativeTracker :=
  { turn_order := c4_order, current_turn_index := 0, round_number := 1,
    combat_active := true }

/-- The C4 teams: Archer and Cleric are heroes, Bandit and Dragon are
monsters, so both teams still have a living member. -/
def c4_teams : Teams :=
  [("heroes", [mk_creature "Archer" true, mk_creature "Cleric" true]),
   ("monsters", [mk_creature "Bandit" false, mk_creature "Dragon" true])]

/-- A poisoned-condition record applied at round 2 for 3 rounds (C7
witness input). -/
def poison_data : CondData :=
  { duration_type := .rounds, duration_value := 3, save_dc := none,
    save_ability := none, source_name := "Unknown", applied_time := 0,
    applied_round := 2 }

/-- A creature carrying the round-limited poisoned condition (C7 witness
input). -/
def poisoned_wiz : Creature :=
  { mk_creature "Wiz" true with
    conditions := ["poisoned"],
    enhanced_conditions := [("poisoned", poison_data)] }

/-- A stunned-condition record in the shape the per-condition defaults
produce: SAVE_ENDS with a save ability but no save DC (C8 and C9 input). -/
def stunned_default_data : CondData :=
  { duration_type := .save_ends, duration_value := 0, save_dc := none,
    save_ability := some "con", source_name := "Unknown", applied_time := 0,
    applied_round := 0 }

/-- A creature carrying the DC-less SAVE_ENDS stunned condition (C8 and C9
witness input). -/
def stunned_wiz : Creature :=
  { mk_creature "Wiz" true with
    conditions := ["stunned"],
    enhanced_conditions := [("stunned", stunned_default_data)] }

/-! ## Helper lemmas about the dict and set models -/

theorem dict_lookup_assign_self {β : Type} (k : String) (v : β)
    (m : List (String × β)) : dict_lookup k (dict_assign k v m) = some v := by
  induction m with
  | nil => simp [dict_assign, dict_lookup]
  | cons p rest ih =>
    obtain ⟨k1, v1⟩ := p
    by_cases h : k1 = k
    · simp [dict_assign, dict_lookup, h]
    · simp [dict_assign, dict_lookup, h, ih]

theorem dict_lookup_assign_ne {β : Type} {k n : String} (v : β)
    (m : List (String × β)) (h : k ≠ n) :
    dict_lookup n (dict_assign k v m) = dict_lookup n m := by
  induction m with
  | nil => simp [dict_assign, dict_lookup, h]
  | cons p rest ih =>
    obtain ⟨k1, v1⟩ := p
    by_cases h1 : k1 = k
    · subst h1
      simp [dict_assign, dict_lookup, h]
    · simp [dict_assign, dict_lookup, h1, ih]

theorem dict_lookup_drop_self {β : Type} (k : String) (m : List (String × β)) :
    dict_lookup k (dict_drop k m) = none := by
  induction m with
  | nil => simp [dict_drop, dict_lookup]
  | cons p rest ih =>
    obtain ⟨k1, v1⟩ := p
    by_cases h : k1 = k
    · simpa [dict_drop, dict_lookup, h] using ih
    · simpa [dict_drop, dict_lookup, h] using ih

theorem dict_lookup_drop_ne {β : Type} {k n : String} (m : List (String × β))
    (h : k ≠ n) : dict_lookup n (dict_drop k m) = dict_lookup n m := by
  induction m with
  | nil => rfl
  | cons p rest ih =>
    obtain ⟨k1, v1⟩ := p
    unfold dict_drop at ih ⊢
    by_cases h1 : k1 = k
    · subst h1
      simp [List.filter_cons, dict_lookup, h, ih]
    · by_cases h2 : k1 = n
      · simp [List.filter_cons, dict_lookup, h1, h2, Ne.symm h]
      · simp [List.filter_cons, dict_lookup, h1, h2, ih]

theorem dict_lookup_mem {β : Type} {k : String} {v : β} {m : List (String × β)}
    (h : dict_lookup k m = some v) : (k, v) ∈ m := by
  induction m with
  | nil => simp [dict_lookup] at h
  | cons p rest ih =>
    obtain ⟨k1, v1⟩ := p
    by_cases h1 : k1 = k
    · subst h1
      simp [dict_lookup] at h
      simp [h]
    · simp [dict_lookup, h1] at h
      exact List.mem_cons_of_mem _ (ih h)

theorem dict_lookup_none_iff {β : Type} (k : String) (m : List (String × β)) :
    dict_lookup k m = none ↔ k ∉ m.map (fun p => p.1) := by
  induction m with
  | nil => simp [dict_lookup]
  | cons p rest ih =>
    obtain ⟨k1, v1⟩ := p
    by_cases h1 : k1 = k
    · subst h1
      simp [dict_lookup]
    · simp only [dict_lookup, if_neg h1, List.map_cons, List.mem_cons, ih]
      constructor
      · intro hk h2
        rcases h2 with h2 | h2
        · exact h1 h2.symm
        · exact hk h2
      · intro hk h2
        exact hk (Or.inr h2)

theorem dict_assign_of_lookup_none {β : Type} {k : String} (v : β)
    {m : List (String × β)} (h : dict_lookup k m = none) :
    dict_assign k v m = m ++ [(k, v)] := by
  induction m with
  | nil => simp [dict_assign]
  | cons p rest ih =>
    obtain ⟨k1, v1⟩ := p
    by_cases h1 : k1 = k
    · subst h1
      simp [dict_lookup] at h
    · simp [dict_lookup, h1] at h
      simp [dict_assign, h1, ih h]

theorem dict_assign_keys_of_lookup_some {β : Type} {k : String} (v : β)
    {m : List (String × β)} {v0 : β} (h : dict_lookup k m = some v0) :
    (dict_assign k v m).map (fun p => p.1) = m.map (fun p => p.1) := by
  induction m with
  | nil => simp [dict_lookup] at h
  | cons p rest ih =>
    obtain ⟨k1, v1⟩ := p
    by_cases h1 : k1 = k
    · subst h1
      simp [dict_assign]
    · simp [dict_lookup, h1] at h
      simp [dict_assign, h1, ih h]

theorem dict_lookup_none_not_mem {β : Type} {k : String} {v : β}
    {m : List (String × β)} (h : dict_lookup k m = none) : (k, v) ∉ m := by
  intro hmem
  exact (dict_lookup_none_iff k m).mp h (List.mem_map_of_mem (fun p => p.1) hmem)

theorem nodup_keys_drop {β : Type} (k : String) {m : List (String × β)}
    (h : nodup_keys m) : nodup_keys (dict_drop k m) := by
  unfold nodup_keys at h ⊢
  unfold dict_drop
  exact List.Nodup.sublist ((List.filter_sublist m).map (fun p => p.1)) h

theorem nodup_keys_assign {β : Type} (k : String) (v : β) {m : List (String × β)}
    (h : nodup_keys m) : nodup_keys (dict_assign k v m) := by
  unfold nodup_keys at h ⊢
  cases hl : dict_lookup k m with
  | none =>
    rw [dict_assign_of_lookup_none v hl]
    have hk : k ∉ m.map (fun p => p.1) := (dict_lookup_none_iff k m).mp hl
    rw [List.map_append, List.nodup_append]
    refine ⟨h, by simp, ?_⟩
    intro a ha hb
    simp at hb
    subst hb
    exact hk ha
  | some v0 =>
    rw [dict_assign_keys_of_lookup_some v hl]
    exact h

theorem bindings_for_nil_of_lookup_none {β : Type} {k : String}
    {m : List (String × β)} (h : dict_lookup k m = none) :
    bindings_for m k = [] := by
  induction m with
  | nil => simp [bindings_for]
  | cons p rest ih =>
    obtain ⟨k1, v1⟩ := p
    by_cases h1 : k1 = k
    · subst h1
      simp [dict_lookup] at h
    · simp [dict_lookup, h1] at h
      simp [bindings_for, h1] at ih ⊢
      exact ih h

theorem bindings_for_assign_of_lookup_none {β : Type} {k : String} (v : β)
    {m : List (String × β)} (h : dict_lookup k m = none) :
    bindings_for (dict_assign k v m) k = [(k, v)] := by
  rw [dict_assign_of_lookup_none v h]
  unfold bindings_for
  rw [List.filter_append]
  have : bindings_for m k = [] := bindings_for_nil_of_lookup_none h
  unfold bindings_for at this
  simp [this]

theorem dict_lookup_drop_self_none {β : Type} (k : String) (m : List (String × β)) :
    dict_lookup k (dict_drop k m) = none := dict_lookup_drop_self k m

/-! ### Set-model lemmas -/

theorem contains_set_insert_self (s : List String) (x : String) :
    (set_insert s x).contains x = true := by
  unfold set_insert
  by_cases h : s.contains x = true
  · rw [if_pos h]
    exact h
  · rw [if_neg h]
    simp [List.contains_cons]

theorem contains_set_insert_of {s : List String} {c : String} (x : String)
    (h : s.contains c = true) : (set_insert s x).contains c = true := by
  unfold set_insert
  by_cases h1 : s.contains x = true
  · rw [if_pos h1]
    exact h
  · rw [if_neg h1]
    have hc : c ∈ s := List.elem_iff.mp h
    simp [List.contains_cons]
    exact Or.inr hc

theorem contains_set_remove_self (s : List String) (x : String) :
    (set_remove s x).contains x = false := by
  unfold set_remove
  rw [Bool.eq_false_iff]
  intro hcon
  have hmem : x ∈ s.filter (fun c => c != x) := List.elem_iff.mp hcon
  have := List.of_mem_filter hmem
  simp at this

theorem contains_set_remove_ne {c x : String} (s : List String) (h : c ≠ x) :
    (set_remove s x).contains c = s.contains c := by
  unfold set_remove
  induction s with
  | nil => rfl
  | cons a rest ih =>
    by_cases h1 : a = x
    · subst h1
      simp [List.filter_cons, List.contains_cons, h, ih]
    · simp [List.filter_cons, h1, List.contains_cons, ih, h]

theorem remove_condition_other_conditions {acc : Creature} {mname n : String}
    (h : py_lower mname ≠ n) :
    ((remove_condition acc mname).1).conditions.contains n = acc.conditions.contains n := by
  unfold remove_condition
  by_cases hc : acc.conditions.contains (py_lower mname) = true
  · simp only [hc, if_pos]
    exact contains_set_remove_ne acc.conditions (Ne.symm h)
  · simp only [hc]
    simp

theorem remove_condition_other_lookup {acc : Creature} {mname n : String}
    (h : py_lower mname ≠ n) :
    dict_lookup n ((remove_condition acc mname).1).enhanced_conditions
      = dict_lookup n acc.enhanced_conditions := by
  unfold remove_condition
  by_cases hc : acc.conditions.contains (py_lower mname) = true
  · simp only [hc, if_pos]
    exact dict_lookup_drop_ne acc.enhanced_conditions h
  · simp only [hc]
    simp

theorem remove_condition_self {acc : Creature} {n : String} (hl : py_lower n = n)
    (h : acc.conditions.contains n = true) :
    ((remove_condition acc n).1).conditions.contains n = false ∧
    dict_lookup n ((remove_condition acc n).1).enhanced_conditions = none ∧
    (remove_condition acc n).2 = true := by
  unfold remove_condition
  rw [hl]
  simp only [h, if_pos]
  exact ⟨contains_set_remove_self acc.conditions n, dict_lookup_drop_self n _, trivial⟩

theorem fold_remove_preserves {names : List String} {n : String}
    (h : ∀ m ∈ names, py_lower m ≠ n) (acc : Creature) :
    ((names.foldl (fun a nm => (remove_condition a nm).1) acc).conditions.contains n
      = acc.conditions.contains n) ∧
    (dict_lookup n (names.foldl (fun a nm => (remove_condition a nm).1) acc).enhanced_conditions
      = dict_lookup n acc.enhanced_conditions) := by
  induction names generalizing acc with
  | nil => exact ⟨rfl, rfl⟩
  | cons m rest ih =>
    simp only [List.foldl_cons]
    have hm := h m (List.mem_cons_self m rest)
    have hrest : ∀ m2 ∈ rest, py_lower m2 ≠ n :=
      fun m2 hm2 => h m2 (List.mem_cons_of_mem _ hm2)
    obtain ⟨h1, h2⟩ := ih hrest ((remove_condition acc m).1)
    exact ⟨h1.trans (remove_condition_other_conditions hm),
           h2.trans (remove_condition_other_lookup hm)⟩

theorem fold_remove_removes {names : List String} {n : String}
    (hlow : ∀ m ∈ names, py_lower m = m) (hnd : names.Nodup) (hmem : n ∈ names) :
    ∀ acc : Creature, acc.conditions.contains n = true →
    ((names.foldl (fun a nm => (remove_condition a nm).1) acc).conditions.contains n = false) ∧
    (dict_lookup n (names.foldl (fun a nm => (remove_condition a nm).1) acc).enhanced_conditions = none) := by
  induction names with
  | nil => cases hmem
  | cons m rest ih =>
    intro acc hacc
    simp only [List.foldl_cons]
    by_cases hm : m = n
    · subst hm
      have hlm : py_lower m = m := hlow m (List.mem_cons_self m rest)
      obtain ⟨hc, hd, _⟩ := remove_condition_self hlm hacc
      have hnotmem : m ∉ rest := (List.nodup_cons.mp hnd).1
      have hrest : ∀ m2 ∈ rest, py_lower m2 ≠ m := by
        intro m2 hm2
        rw [hlow m2 (List.mem_cons_of_mem _ hm2)]
        intro heq
        exact hnotmem (heq ▸ hm2)
      obtain ⟨h1, h2⟩ := fold_remove_preserves hrest ((remove_condition acc m).1)
      exact ⟨h1.trans hc, h2.trans hd⟩
    · have hmem2 : n ∈ rest := by
        rcases List.mem_cons.mp hmem with h2 | h2
        · exact absurd h2.symm hm
        · exact h2
      have hlm : py_lower m = m := hlow m (List.mem_cons_self m rest)
      have hne : py_lower m ≠ n := by rw [hlm]; exact hm
      have hacc2 : ((remove_condition acc m).1).conditions.contains n = true :=
        (remove_condition_other_conditions hne).trans hacc
      exact ih (fun m2 hm2 => hlow m2 (List.mem_cons_of_mem _ hm2))
        (List.nodup_cons.mp hnd).2 hmem2 ((remove_condition acc m).1) hacc2

theorem nodup_keys_mem_unique {β : Type} {m : List (String × β)} (h : nodup_keys m)
    {k : String} {v1 v2 : β} (h1 : (k, v1) ∈ m) (h2 : (k, v2) ∈ m) : v1 = v2 := by
  induction m with
  | nil => cases h1
  | cons p rest ih =>
    obtain ⟨k0, v0⟩ := p
    unfold nodup_keys at h
    simp only [List.map_cons, List.nodup_cons] at h
    rcases List.mem_cons.mp h1 with ha | ha
    · rcases List.mem_cons.mp h2 with hb | hb
      · rw [Prod.mk.injEq] at ha hb
        exact ha.2.trans hb.2.symm
      · exfalso
        rw [Prod.mk.injEq] at ha
        exact h.1 (ha.1 ▸ List.mem_map_of_mem (fun p => p.1) hb)
    · rcases List.mem_cons.mp h2 with hb | hb
      · exfalso
        rw [Prod.mk.injEq] at hb
        exact h.1 (hb.1 ▸ List.mem_map_of_mem (fun p => p.1) ha)
      · exact ih h.2 ha hb


theorem py_lower_incapacitated : py_lower "incapacitated" = "incapacitated" := by decide

theorem py_lower_prone : py_lower "prone" = "prone" := by decide

theorem py_lower_unconscious : py_lower "unconscious" = "unconscious" := by decide

theorem py_lower_stunned : py_lower "stunned" = "stunned" := by decide

theorem cond_mono (fuel : Nat) :
    (∀ t conc nm dt dv dc sa sn now r c, t.conditions.contains c = true →
      ((add_condition_fuel fuel t conc nm dt dv dc sa sn now r).1).conditions.contains c = true) ∧
    (∀ t conc nm now r c, t.conditions.contains c = true →
      ((apply_condition_effects fuel t conc nm now r).1).conditions.contains c = true) := by
  induction fuel with
  | zero =>
    have hadd : ∀ t conc nm dt dv dc sa sn now r c, t.conditions.contains c = true →
        ((add_condition_fuel 0 t conc nm dt dv dc sa sn now r).1).conditions.contains c = true := by
      intro t conc nm dt dv dc sa sn now r c hc
      simpa [add_condition_fuel] using hc
    refine ⟨hadd, ?_⟩
    intro t conc nm now r c hc
    have hc2 : c ∈ t.conditions := List.elem_iff.mp hc
    simp only [apply_condition_effects, add_condition_fuel]
    repeat' split
    all_goals simp [hc2]
  | succ f ih =>
    have hadd : ∀ t conc nm dt dv dc sa sn now r c, t.conditions.contains c = true →
        ((add_condition_fuel (f + 1) t conc nm dt dv dc sa sn now r).1).conditions.contains c = true := by
      intro t conc nm dt dv dc sa sn now r c hc
      rw [add_condition_fuel.eq_def]
      exact ih.2 _ _ _ _ _ _ (contains_set_insert_of _ hc)
    refine ⟨hadd, ?_⟩
    intro t conc nm now r c hc
    rw [apply_condition_effects.eq_def]
    split
    · exact hc
    · split
      · exact hc
      · split
        · split
          · exact hc
          · exact hadd _ _ _ _ _ _ _ _ _ _ _ hc
        · split
          · split
            · dsimp only
              split
              · exact hc
              · exact hadd _ _ _ _ _ _ _ _ _ _ _ hc
            · dsimp only
              split
              · exact hadd _ _ _ _ _ _ _ _ _ _ _ hc
              · exact hadd _ _ _ _ _ _ _ _ _ _ _ (hadd _ _ _ _ _ _ _ _ _ _ _ hc)
          · exact hc


theorem add_condition_fuel_self (f : Nat) (t : Creature) (conc : ConcMap) (nm : String)
    (dt : Option DurationType) (dv dc : Option Int) (sa sn : Option String) (now r : Int) :
    ((add_condition_fuel (f + 1) t conc nm dt dv dc sa sn now r).1).conditions.contains
      (py_lower nm) = true := by
  rw [add_condition_fuel.eq_def]
  exact (cond_mono f).2 _ _ _ _ _ _ (contains_set_insert_self _ _)

theorem apply_unconscious_has (f : Nat) (t0 : Creature) (conc : ConcMap) (now r : Int) :
    ((apply_condition_effects (f + 1) t0 conc "unconscious" now r).1).conditions.contains
      "incapacitated" = true ∧
    ((apply_condition_effects (f + 1) t0 conc "unconscious" now r).1).conditions.contains
      "prone" = true := by
  rw [apply_condition_effects.eq_def]
  rw [if_neg (by decide : ¬(("unconscious" : String) = "incapacitated"))]
  rw [if_neg (by decide : ¬(("unconscious" : String) = "prone"))]
  rw [if_neg (by decide : ¬(("unconscious" : String) = "stunned"))]
  rw [if_pos (rfl : ("unconscious" : String) = "unconscious")]
  by_cases h4 : has_condition t0 "incapacitated" = true
  · rw [if_pos h4]
    dsimp only
    by_cases h5 : has_condition t0 "prone" = true
    · rw [if_pos h5]
      unfold has_condition at h4 h5
      rw [py_lower_incapacitated] at h4
      rw [py_lower_prone] at h5
      exact ⟨h4, h5⟩
    · rw [if_neg h5]
      constructor
      · unfold has_condition at h4
        rw [py_lower_incapacitated] at h4
        exact (cond_mono (f + 1)).1 _ _ _ _ _ _ _ _ _ _ _ h4
      · have := add_condition_fuel_self f t0 conc "prone" none none none none none now r
        rw [py_lower_prone] at this
        exact this
  · rw [if_neg h4]
    dsimp only
    have hinc : ((add_condition_fuel (f + 1) t0 conc "incapacitated" none none none none none
        now r).1).conditions.contains "incapacitated" = true := by
      have := add_condition_fuel_self f t0 conc "incapacitated" none none none none none now r
      rwa [py_lower_incapacitated] at this
    by_cases h5 : has_condition (add_condition_fuel (f + 1) t0 conc "incapacitated" none none
        none none none now r).1 "prone" = true
    · rw [if_pos h5]
      unfold has_condition at h5
      rw [py_lower_prone] at h5
      exact ⟨hinc, h5⟩
    · rw [if_neg h5]
      constructor
      · exact (cond_mono (f + 1)).1 _ _ _ _ _ _ _ _ _ _ _ hinc
      · have := add_condition_fuel_self f
          (add_condition_fuel (f + 1) t0 conc "incapacitated" none none none none none now r).1
          (add_condition_fuel (f + 1) t0 conc "incapacitated" none none none none none now r).2
          "prone" none none none none none now r
        rwa [py_lower_prone] at this

theorem apply_stunned_has (f : Nat) (t0 : Creature) (conc : ConcMap) (now r : Int) :
    ((apply_condition_effects (f + 1) t0 conc "stunned" now r).1).conditions.contains
      "incapacitated" = true := by
  rw [apply_condition_effects.eq_def]
  rw [if_neg (by decide : ¬(("stunned" : String) = "incapacitated"))]
  rw [if_neg (by decide : ¬(("stunned" : String) = "prone"))]
  rw [if_pos (rfl : ("stunned" : String) = "stunned")]
  by_cases h4 : has_condition t0 "incapacitated" = true
  · rw [if_pos h4]
    unfold has_condition at h4
    rwa [py_lower_incapacitated] at h4
  · rw [if_neg h4]
    have := add_condition_fuel_self f t0 conc "incapacitated" none none none none none now r
    rwa [py_lower_incapacitated] at this


theorem unique_casters_break (conc : ConcMap) (caster : String)
    (h : unique_casters conc) : unique_casters (break_concentration conc caster).2 := by
  unfold break_concentration
  by_cases hc : is_concentrating conc caster = true
  · rw [if_pos hc]
    exact nodup_keys_drop caster h
  · rw [if_neg hc]
    exact h

theorem unique_casters_check_save (conc : ConcMap) (caster : String) (damage : Nat)
    (save : String → Int → Bool) (h : unique_casters conc) :
    unique_casters (check_concentration_save conc caster damage save).2 := by
  unfold check_concentration_save
  by_cases h1 : is_concentrating conc caster = true
  · simp only [h1]
    by_cases h2 : save "con" ((concentration_dc damage : Nat) : Int) = true
    · simp only [h2, if_pos, Bool.not_true, Bool.false_eq_true, if_false]
      exact h
    · simp only [h2]
      simp only [Bool.not_true, Bool.false_eq_true, if_false, if_neg h2]
      exact unique_casters_break conc caster h
  · simp only [h1]
    simp
    exact h

theorem unique_casters_handle_change (conc : ConcMap) (cn cond : String)
    (added : Bool) (h : unique_casters conc) :
    unique_casters (handle_condition_change conc cn cond added) := by
  unfold handle_condition_change
  by_cases h1 : added = true
  · subst h1
    simp only [Bool.not_true, Bool.false_eq_true, if_false]
    by_cases h2 : breaking_conditions.contains (py_lower cond) = true
    · rw [if_pos h2]
      by_cases h3 : is_concentrating conc cn = true
      · rw [if_pos h3]
        exact unique_casters_break conc cn h
      · rw [if_neg h3]
        exact h
    · rw [if_neg h2]
      exact h
  · simp at h1
    subst h1
    simp
    exact h

theorem unique_casters_fold_break (l : List (String × ConcentrationEffect)) :
    ∀ conc : ConcMap, unique_casters conc →
    unique_casters (l.foldl (fun acc p => (break_concentration acc p.1).2) conc) := by
  induction l with
  | nil =>
    intro conc h
    exact h
  | cons p rest ih =>
    intro conc h
    simp only [List.foldl_cons]
    exact ih _ (unique_casters_break conc p.1 h)

theorem unique_casters_update (conc : ConcMap) (can : String → Bool) (now : Int)
    (h : unique_casters conc) : unique_casters (update_concentrations conc can now) := by
  unfold update_concentrations
  exact unique_casters_fold_break _ conc h

theorem unique_casters_start (conc : ConcMap) (caster : Creature) (en : String)
    (ds : Int) (sl : Option Int) (now : Int) (h : unique_casters conc) :
    unique_casters (start_concentration conc caster en ds sl now).2 := by
  unfold start_concentration
  by_cases h1 : can_concentrate caster = true
  · simp only [h1, Bool.not_true, Bool.false_eq_true, if_false]
    by_cases h2 : is_concentrating conc caster.name = true
    · rw [if_pos h2]
      exact nodup_keys_assign _ _ (unique_casters_break conc caster.name h)
    · rw [if_neg h2]
      exact nodup_keys_assign _ _ h
  · have h1f : can_concentrate caster = false := by
      cases hcc : can_concentrate caster
      · rfl
      · exact absurd hcc h1
    rw [if_pos (by rw [h1f]; rfl : (!(can_concentrate caster)) = true)]
    exact h


theorem start_concentration_stores (conc : ConcMap) (caster : Creature) (en : String)
    (ds : Int) (sl : Option Int) (now : Int)
    (hcan : can_concentrate caster = true) :
    (start_concentration conc caster en ds sl now).1 = true ∧
    ∃ e : ConcentrationEffect,
      dict_lookup caster.name (start_concentration conc caster en ds sl now).2 = some e ∧
      bindings_for (start_concentration conc caster en ds sl now).2 caster.name
        = [(caster.name, e)] ∧
      e.effect_name = en ∧ e.caster_name = caster.name ∧
      e.duration_seconds = ds ∧ e.start_time = now := by
  unfold start_concentration
  rw [if_neg (by rw [hcan]; exact (by simp) : ¬((!(can_concentrate caster)) = true))]
  dsimp only
  have hnone : dict_lookup caster.name
      (if is_concentrating conc caster.name = true
        then (break_concentration conc caster.name).2 else conc) = none := by
    by_cases h2 : is_concentrating conc caster.name = true
    · rw [if_pos h2]
      unfold break_concentration
      rw [if_pos h2]
      exact dict_lookup_drop_self _ _
    · rw [if_neg h2]
      unfold is_concentrating at h2
      cases hl : dict_lookup caster.name conc with
      | none => rfl
      | some e0 =>
        rw [hl] at h2
        simp at h2
  exact ⟨rfl, _, dict_lookup_assign_self _ _ _,
    bindings_for_assign_of_lookup_none _ hnone, rfl, rfl, rfl, rfl⟩


theorem chars_le_total : ∀ l1 l2 : List Char,
    chars_le l1 l2 = true ∨ chars_le l2 l1 = true := by
  intro l1
  induction l1 with
  | nil => intro l2; exact Or.inl rfl
  | cons a r1 ih =>
    intro l2
    cases l2 with
    | nil => exact Or.inr rfl
    | cons b r2 =>
      simp only [chars_le]
      rcases Nat.lt_trichotomy a.toNat b.toNat with h | h | h
      · left
        simp [h]
      · have h1 : ¬a.toNat < b.toNat := by omega
        have h2 : ¬b.toNat < a.toNat := by omega
        rcases ih r2 with h3 | h3
        · left
          simp [h1, h2, h3]
        · right
          simp [h1, h2, h3]
      · right
        simp [h]

theorem chars_le_trans : ∀ l1 l2 l3 : List Char,
    chars_le l1 l2 = true → chars_le l2 l3 = true → chars_le l1 l3 = true := by
  intro l1
  induction l1 with
  | nil =>
    intro l2 l3 _ _
    rfl
  | cons a r1 ih =>
    intro l2 l3 h1 h2
    cases l2 with
    | nil => simp [chars_le] at h1
    | cons b r2 =>
      cases l3 with
      | nil => simp [chars_le] at h2
      | cons c r3 =>
        simp only [chars_le] at h1 h2 ⊢
        by_cases hab : a.toNat < b.toNat
        · by_cases hbc : b.toNat < c.toNat
          · simp [show a.toNat < c.toNat from by omega]
          · by_cases hcb : c.toNat < b.toNat
            · simp [hbc, hcb] at h2
            · simp [show a.toNat < c.toNat from by omega]
        · by_cases hba : b.toNat < a.toNat
          · simp [hab, hba] at h1
          · by_cases hbc : b.toNat < c.toNat
            · simp [show a.toNat < c.toNat from by omega]
            · by_cases hcb : c.toNat < b.toNat
              · simp [hbc, hcb] at h2
              · have hac : ¬a.toNat < c.toNat := by omega
                have hca : ¬c.toNat < a.toNat := by omega
                simp [hab, hba] at h1
                simp [hbc, hcb] at h2
                simp [hac, hca]
                exact ih r2 r3 h1 h2

theorem key_le_total (k1 k2 : Int × String) : key_le k1 k2 ∨ key_le k2 k1 := by
  rcases lt_trichotomy k1.1 k2.1 with h | h | h
  · exact Or.inl (Or.inl h)
  · rcases chars_le_total k1.2.data k2.2.data with h2 | h2
    · exact Or.inl (Or.inr ⟨h, h2⟩)
    · exact Or.inr (Or.inr ⟨h.symm, h2⟩)
  · exact Or.inr (Or.inl h)

theorem key_le_trans {k1 k2 k3 : Int × String} (h1 : key_le k1 k2) (h2 : key_le k2 k3) :
    key_le k1 k3 := by
  rcases h1 with h1 | ⟨h1a, h1b⟩
  · rcases h2 with h2 | ⟨h2a, h2b⟩
    · exact Or.inl (h1.trans h2)
    · exact Or.inl (h2a ▸ h1)
  · rcases h2 with h2 | ⟨h2a, h2b⟩
    · exact Or.inl (h1a ▸ h2)
    · exact Or.inr ⟨h1a.trans h2a, chars_le_trans _ _ _ h1b h2b⟩

instance : IsTotal InitiativeResult turn_order_rel :=
  ⟨fun a b => (key_le_total (initiative_key b) (initiative_key a)).imp id id⟩

instance : IsTrans InitiativeResult turn_order_rel :=
  ⟨fun _ _ _ hab hbc => key_le_trans hbc hab⟩

theorem determine_turn_order_sorted (results : List InitiativeResult) :
    List.Sorted turn_order_rel (determine_turn_order results) :=
  List.sorted_insertionSort turn_order_rel results

theorem determine_turn_order_perm (results : List InitiativeResult) :
    (determine_turn_order results).Perm results :=
  List.perm_insertionSort turn_order_rel results


theorem filtered_names_lower {β : Type} (q : String × β → Bool) {m : List (String × β)}
    (hlow : ∀ k ∈ m.map (fun p => p.1), py_lower k = k) :
    ∀ k ∈ (m.filter q).map (fun p => p.1), py_lower k = k := by
  intro k hk
  rcases List.mem_map.mp hk with ⟨p, hp, hfst⟩
  exact hlow k (hfst ▸ List.mem_map_of_mem _ (List.mem_of_mem_filter hp))

theorem filtered_names_nodup {β : Type} (q : String × β → Bool) {m : List (String × β)}
    (h : nodup_keys m) : ((m.filter q).map (fun p => p.1)).Nodup :=
  List.Nodup.sublist ((List.filter_sublist m).map (fun p => p.1)) h

theorem not_mem_filtered_names {β : Type} {q : String × β → Bool} {m : List (String × β)}
    {n : String} {data : β} (hnd : nodup_keys m) (hl : dict_lookup n m = some data)
    (hq : q (n, data) = false) : n ∉ (m.filter q).map (fun p => p.1) := by
  intro hmem
  rcases List.mem_map.mp hmem with ⟨p, hp, hfst⟩
  obtain ⟨k, v⟩ := p
  simp only at hfst
  subst hfst
  have hpm := List.mem_of_mem_filter hp
  have hv : v = data := nodup_keys_mem_unique hnd hpm (dict_lookup_mem hl)
  subst hv
  rw [List.of_mem_filter hp] at hq
  cases hq

theorem mem_filtered_names {β : Type} {q : String × β → Bool} {m : List (String × β)}
    {n : String} {data : β} (hl : dict_lookup n m = some data) (hq : q (n, data) = true) :
    n ∈ (m.filter q).map (fun p => p.1) :=
  List.mem_map_of_mem _ (List.mem_filter.mpr ⟨dict_lookup_mem hl, hq⟩)

/-- Sweeping a creature whose stored instance for n is not expired leaves
the instance and the legacy membership untouched. -/
theorem sweep_creature_preserves {c : Creature} {n : String} {data : CondData}
    {now r : Int} (hnd : nodup_keys c.enhanced_conditions)
    (hlow : ∀ k ∈ c.enhanced_conditions.map (fun p => p.1), py_lower k = k)
    (hl : dict_lookup n c.enhanced_conditions = some data)
    (hexp : is_condition_expired data now r = false) :
    ((sweep_creature now r c).1).conditions.contains n = c.conditions.contains n ∧
    dict_lookup n ((sweep_creature now r c).1).enhanced_conditions = some data := by
  unfold sweep_creature
  have hnot : n ∉ (c.enhanced_conditions.filter
      (fun p => is_condition_expired p.2 now r)).map (fun p => p.1) :=
    not_mem_filtered_names hnd hl hexp
  have hlowE := filtered_names_lower (fun p => is_condition_expired p.2 now r) hlow
  have hne : ∀ m ∈ (c.enhanced_conditions.filter
      (fun p => is_condition_expired p.2 now r)).map (fun p => p.1), py_lower m ≠ n := by
    intro m hm
    rw [hlowE m hm]
    intro heq
    exact hnot (heq ▸ hm)
  obtain ⟨h1, h2⟩ := fold_remove_preserves hne c
  exact ⟨h1, h2.trans hl⟩

/-- Sweeping a creature whose stored instance for n is expired removes both
the instance and the legacy membership. -/
theorem sweep_creature_removes {c : Creature} {n : String} {data : CondData}
    {now r : Int} (hnd : nodup_keys c.enhanced_conditions)
    (hlow : ∀ k ∈ c.enhanced_conditions.map (fun p => p.1), py_lower k = k)
    (hl : dict_lookup n c.enhanced_conditions = some data)
    (hmem : c.conditions.contains n = true)
    (hexp : is_condition_expired data now r = true) :
    ((sweep_creature now r c).1).conditions.contains n = false ∧
    dict_lookup n ((sweep_creature now r c).1).enhanced_conditions = none := by
  unfold sweep_creature
  have hin : n ∈ (c.enhanced_conditions.filter
      (fun p => is_condition_expired p.2 now r)).map (fun p => p.1) :=
    mem_filtered_names hl hexp
  exact fold_remove_removes
    (filtered_names_lower (fun p => is_condition_expired p.2 now r) hlow)
    (filtered_names_nodup (fun p => is_condition_expired p.2 now r) hnd) hin c hmem

/-- An end-of-turn save pass never touches a SAVE_ENDS instance whose
save_dc is unset, whatever the injected saving-throw oracle returns. -/
theorem process_saves_preserves {c : Creature} {n : String} {data : CondData}
    (save : String → Int → Bool) (hnd : nodup_keys c.enhanced_conditions)
    (hlow : ∀ k ∈ c.enhanced_conditions.map (fun p => p.1), py_lower k = k)
    (hl : dict_lookup n c.enhanced_conditions = some data)
    (hdc : data.save_dc = none) :
    ((process_end_of_turn_saves c save).1).conditions.contains n
      = c.conditions.contains n ∧
    dict_lookup n ((process_end_of_turn_saves c save).1).enhanced_conditions = some data := by
  unfold process_end_of_turn_saves
  have hq : (fun p : String × CondData =>
      p.2.duration_type == DurationType.save_ends &&
      truthy_opt_str p.2.save_ability && truthy_opt_int p.2.save_dc &&
      save (p.2.save_ability.getD "") (p.2.save_dc.getD 0)) (n, data) = false := by
    simp [hdc, truthy_opt_int]
  have hnot := @not_mem_filtered_names CondData
    (fun p => p.2.duration_type == DurationType.save_ends &&
      truthy_opt_str p.2.save_ability && truthy_opt_int p.2.save_dc &&
      save (p.2.save_ability.getD "") (p.2.save_dc.getD 0))
    c.enhanced_conditions n data hnd hl hq
  have hlowE := filtered_names_lower
    (fun p : String × CondData => p.2.duration_type == DurationType.save_ends &&
      truthy_opt_str p.2.save_ability && truthy_opt_int p.2.save_dc &&
      save (p.2.save_ability.getD "") (p.2.save_dc.getD 0)) hlow
  have hne : ∀ m ∈ (c.enhanced_conditions.filter
      (fun p => p.2.duration_type == DurationType.save_ends &&
        truthy_opt_str p.2.save_ability && truthy_opt_int p.2.save_dc &&
        save (p.2.save_ability.getD "") (p.2.save_dc.getD 0))).map (fun p => p.1),
      py_lower m ≠ n := by
    intro m hm
    rw [hlowE m hm]
    intro heq
    exact hnot (heq ▸ hm)
  obtain ⟨h1, h2⟩ := fold_remove_preserves hne c
  exact ⟨h1, h2.trans hl⟩


theorem bindings_for_length_le_one {β : Type} {m : List (String × β)}
    (h : nodup_keys m) (k : String) : (bindings_for m k).length ≤ 1 := by
  induction m with
  | nil => simp [bindings_for]
  | cons p rest ih =>
    obtain ⟨k0, v0⟩ := p
    unfold nodup_keys at h
    simp only [List.map_cons, List.nodup_cons] at h
    by_cases h1 : k0 = k
    · subst h1
      have hrest : dict_lookup k0 rest = none := by
        rw [dict_lookup_none_iff]
        exact h.1
      have : bindings_for rest k0 = [] := bindings_for_nil_of_lookup_none hrest
      unfold bindings_for at this ⊢
      simp [this]
    · unfold bindings_for at ih ⊢
      simpa [List.filter_cons, h1] using ih h.2

/-- C1 (counterexample): with two tied initiative totals the produced
order puts Barbarian first, not Archer: the reverse=True Python sort also
reverses the name tie-break, so equal totals are ordered by name
descending. -/
theorem C1_counterexample :
    (determine_turn_order
      [⟨mk_creature "Archer" true, 15, false⟩,
       ⟨mk_creature "Barbarian" true, 15, false⟩]).map (fun r => r.creature.name)
      = ["Barbarian", "Archer"] ∧
    ¬((determine_turn_order
      [⟨mk_creature "Archer" true, 15, false⟩,
       ⟨mk_creature "Barbarian" true, 15, false⟩]).map (fun r => r.creature.name)
      = ["Archer", "Barbarian"]) := by
  decide

/-- C1 (amended): the turn order produced at encounter start is a
permutation of the initiative results sorted descending by the key
(initiative total, participant name): totals descend, and two entries with
equal totals are ordered deterministically by participant name in
descending order — so "Barbarian" precedes "Archer" on a tie. -/
theorem C1_turn_order_sorted_descending (results : List InitiativeResult) :
    List.Sorted turn_order_rel (determine_turn_order results) ∧
    (determine_turn_order results).Perm results :=
  ⟨determine_turn_order_sorted results, determine_turn_order_perm results⟩

/-- C2 (code bug): an alive creature holding the incapacitated condition —
which the condition registry itself reports as preventing actions — still
gets a successful use_action: the action economy never consults the
condition registry, so use returns true and marks the action used. -/
theorem C2_use_action_ignores_conditions :
    incap_fighter.is_alive = true ∧
    has_condition incap_fighter "incapacitated" = true ∧
    (check_condition_prevents_action incap_fighter "action").1 = true ∧
    (incap_economy.use_action "Attack").1 = true ∧
    (incap_economy.use_action "Attack").2.action_used = true := by
  decide

/-- C3 (counterexample): a concentrating caster who takes 20 damage rolls
against DC 10, not DC 15: the clamp formula gives min(30, max(10, 20 // 2))
= 10, and an oracle that succeeds exactly at DC 15 loses the effect. -/
theorem C3_counterexample :
    concentration_dc 20 = 10 ∧
    concentration_dc 20 ≠ 15 ∧
    is_concentrating [("Wiz", wiz_effect)] "Wiz" = true ∧
    (check_concentration_save [("Wiz", wiz_effect)] "Wiz" 20
      (fun _ dc => decide (dc = 15))).2 = [] := by
  decide

/-- C3 (amended): for a caster with an active concentration effect taking
20 damage, check_concentration_save computes a Constitution save DC of 10
(the clamp formula applied to 20 damage), and when that Constitution save
fails the concentration effect is removed. -/
theorem C3_damage20_dc10_failed_save_breaks (conc : ConcMap) (caster : String)
    (save : String → Int → Bool) (h : is_concentrating conc caster = true)
    (hfail : save "con" ((concentration_dc 20 : Nat) : Int) = false) :
    concentration_dc 20 = 10 ∧
    (check_concentration_save conc caster 20 save).1 = false ∧
    is_concentrating (check_concentration_save conc caster 20 save).2 caster = false := by
  have hres : check_concentration_save conc caster 20 save
      = (false, (break_concentration conc caster).2) := by
    unfold check_concentration_save
    rw [if_neg (by rw [h]; simp : ¬((!(is_concentrating conc caster)) = true))]
    dsimp only
    rw [if_neg (by rw [hfail]; simp : ¬(save "con" ((concentration_dc 20 : Nat) : Int) = true))]
  refine ⟨rfl, by rw [hres], ?_⟩
  rw [hres]
  unfold break_concentration
  rw [if_pos h]
  simp [is_concentrating, dict_lookup_drop_self]

theorem C3_witness :
    is_concentrating [("Wiz", wiz_effect)] "Wiz" = true ∧
    (concentration_dc 20 = 10 ∧
     (check_concentration_save [("Wiz", wiz_effect)] "Wiz" 20 (fun _ _ => false)).1 = false ∧
     is_concentrating (check_concentration_save [("Wiz", wiz_effect)] "Wiz" 20
       (fun _ _ => false)).2 "Wiz" = false) :=
  ⟨by decide, C3_damage20_dc10_failed_save_breaks [("Wiz", wiz_effect)] "Wiz"
    (fun _ _ => false) (by decide) rfl⟩

/-- C4 (code bug): in an active encounter whose order still holds three
living creatures on two living teams, advancing from the living Archer
returns the dead Bandit and leaves the cursor on it — advance_turn skips
dead creatures before moving the cursor rather than after, so the dead
entry gets a started turn. -/
theorem C4_advance_turn_lands_on_dead :
    c4_tracker.combat_active = true ∧
    (c4_tracker.turn_order.filter (fun res => res.creature.is_alive)).length = 3 ∧
    (advance_turn c4_teams c4_tracker).1 = some (mk_creature "Bandit" false) ∧
    (mk_creature "Bandit" false).is_alive = false ∧
    (advance_turn c4_teams c4_tracker).2.combat_active = true ∧
    get_current_creature (advance_turn c4_teams c4_tracker).2
      = some (mk_creature "Bandit" false) := by
  decide


theorem add_condition_fuel_succ_creature (f : Nat) (t : Creature) (conc : ConcMap)
    (nm : String) (dt : Option DurationType) (dv dc : Option Int)
    (sa sn : Option String) (now r : Int) :
    ∃ t1 : Creature,
      (add_condition_fuel (f + 1) t conc nm dt dv dc sa sn now r).1
        = (apply_condition_effects f t1 conc (py_lower nm) now r).1 ∧
      t1.conditions = set_insert t.conditions (py_lower nm) := by
  rw [add_condition_fuel.eq_def]
  exact ⟨_, rfl, rfl⟩

/-- Adding unconscious through the real add path leaves the creature with
the unconscious, incapacitated and prone conditions all present. -/
theorem add_unconscious_all (target : Creature) (conc : ConcMap)
    (dt : Option DurationType) (dv dc : Option Int) (sa sn : Option String)
    (now r : Int) :
    has_condition (add_condition target conc "unconscious" dt dv dc sa sn now r).1
      "unconscious" = true ∧
    has_condition (add_condition target conc "unconscious" dt dv dc sa sn now r).1
      "incapacitated" = true ∧
    has_condition (add_condition target conc "unconscious" dt dv dc sa sn now r).1
      "prone" = true := by
  obtain ⟨t1, he, _⟩ :=
    add_condition_fuel_succ_creature 2 target conc "unconscious" dt dv dc sa sn now r
  rw [py_lower_unconscious] at he
  have he3 : (add_condition target conc "unconscious" dt dv dc sa sn now r).1
      = (apply_condition_effects 2 t1 conc "unconscious" now r).1 := he
  refine ⟨?_, ?_, ?_⟩
  · unfold has_condition
    rw [py_lower_unconscious]
    have hs := add_condition_fuel_self 2 target conc "unconscious" dt dv dc sa sn now r
    rw [py_lower_unconscious] at hs
    exact hs
  · unfold has_condition
    rw [py_lower_incapacitated, he3]
    exact (apply_unconscious_has 1 t1 conc now r).1
  · unfold has_condition
    rw [py_lower_prone, he3]
    exact (apply_unconscious_has 1 t1 conc now r).2

/-- Adding stunned through the real add path leaves the creature with the
stunned and incapacitated conditions present. -/
theorem add_stunned_all (target : Creature) (conc : ConcMap)
    (dt : Option DurationType) (dv dc : Option Int) (sa sn : Option String)
    (now r : Int) :
    has_condition (add_condition target conc "stunned" dt dv dc sa sn now r).1
      "stunned" = true ∧
    has_condition (add_condition target conc "stunned" dt dv dc sa sn now r).1
      "incapacitated" = true := by
  obtain ⟨t2, he, _⟩ :=
    add_condition_fuel_succ_creature 2 target conc "stunned" dt dv dc sa sn now r
  rw [py_lower_stunned] at he
  have he3 : (add_condition target conc "stunned" dt dv dc sa sn now r).1
      = (apply_condition_effects 2 t2 conc "stunned" now r).1 := he
  refine ⟨?_, ?_⟩
  · unfold has_condition
    rw [py_lower_stunned]
    have hs := add_condition_fuel_self 2 target conc "stunned" dt dv dc sa sn now r
    rw [py_lower_stunned] at hs
    exact hs
  · unfold has_condition
    rw [py_lower_incapacitated, he3]
    exact apply_stunned_has 1 t2 conc now r


/-- C5: every concentration operation — start, break, damage save,
condition change and the periodic sweep — preserves the
one-binding-per-caster registry invariant; under that invariant every
caster has at most one active effect; and start_concentration for a
caster able to concentrate succeeds and leaves exactly one binding for
that caster, holding the newly created effect (any previous one having
been broken first). -/
theorem C5_one_effect_per_caster (conc : ConcMap) (caster : Creature)
    (cn cond en : String) (added : Bool) (damage : Nat)
    (save : String → Int → Bool) (can : String → Bool) (ds now : Int)
    (sl : Option Int) (h : unique_casters conc) :
    unique_casters (start_concentration conc caster en ds sl now).2 ∧
    unique_casters (break_concentration conc cn).2 ∧
    unique_casters (check_concentration_save conc cn damage save).2 ∧
    unique_casters (handle_condition_change conc cn cond added) ∧
    unique_casters (update_concentrations conc can now) ∧
    (∀ cst, (bindings_for (start_concentration conc caster en ds sl now).2 cst).length ≤ 1) ∧
    (can_concentrate caster = true →
      (start_concentration conc caster en ds sl now).1 = true ∧
      ∃ e, dict_lookup caster.name (start_concentration conc caster en ds sl now).2
          = some e ∧
        bindings_for (start_concentration conc caster en ds sl now).2 caster.name
          = [(caster.name, e)] ∧
        e.effect_name = en ∧ e.caster_name = caster.name ∧
        e.duration_seconds = ds ∧ e.start_time = now) := by
  refine ⟨unique_casters_start conc caster en ds sl now h,
    unique_casters_break conc cn h,
    unique_casters_check_save conc cn damage save h,
    unique_casters_handle_change conc cn cond added h,
    unique_casters_update conc can now h,
    fun cst => bindings_for_length_le_one
      (unique_casters_start conc caster en ds sl now h) cst,
    fun hcan => ?_⟩
  obtain ⟨h1, e, h2, h3, h4, h5, h6, h7⟩ :=
    start_concentration_stores conc caster en ds sl now hcan
  exact ⟨h1, e, h2, h3, h4, h5, h6, h7⟩

theorem C5_witness :
    unique_casters ([("Wiz", wiz_effect)] : ConcMap) ∧
    unique_casters (start_concentration [("Wiz", wiz_effect)]
      (mk_creature "Ann" true) "bless" 60 none 0).2 ∧
    (bindings_for (start_concentration [("Wiz", wiz_effect)]
      (mk_creature "Ann" true) "bless" 60 none 0).2 "Ann").length ≤ 1 ∧
    (start_concentration [("Wiz", wiz_effect)]
      (mk_creature "Ann" true) "bless" 60 none 0).1 = true := by
  have h : unique_casters ([("Wiz", wiz_effect)] : ConcMap) := by decide
  obtain ⟨h1, _, _, _, _, h6, h7⟩ := C5_one_effect_per_caster [("Wiz", wiz_effect)]
    (mk_creature "Ann" true) "Wiz" "stunned" "bless" true 20 (fun _ _ => false)
    (fun _ => false) 60 0 none h
  exact ⟨h, h1, h6 "Ann", (h7 (by decide)).1⟩

/-- C6: adding unconscious through the registry add path leaves the
participant with the implied incapacitated and prone conditions present
(and the unconscious condition itself); likewise adding stunned leaves
the implied incapacitated present, for every starting state. -/
theorem C6_unconscious_cascades (target : Creature) (conc : ConcMap)
    (dt : Option DurationType) (dv dc : Option Int) (sa sn : Option String)
    (now r : Int) :
    has_condition (add_condition target conc "unconscious" dt dv dc sa sn now r).1
      "unconscious" = true ∧
    has_condition (add_condition target conc "unconscious" dt dv dc sa sn now r).1
      "incapacitated" = true ∧
    has_condition (add_condition target conc "unconscious" dt dv dc sa sn now r).1
      "prone" = true ∧
    has_condition (add_condition target conc "stunned" dt dv dc sa sn now r).1
      "stunned" = true ∧
    has_condition (add_condition target conc "stunned" dt dv dc sa sn now r).1
      "incapacitated" = true := by
  obtain ⟨h1, h2, h3⟩ := add_unconscious_all target conc dt dv dc sa sn now r
  obtain ⟨h4, h5⟩ := add_stunned_all target conc dt dv dc sa sn now r
  exact ⟨h1, h2, h3, h4, h5⟩


theorem remove_condition_enhanced_sublist (acc : Creature) (nm : String) :
    ((remove_condition acc nm).1).enhanced_conditions.Sublist acc.enhanced_conditions := by
  unfold remove_condition
  by_cases h : acc.conditions.contains (py_lower nm) = true
  · rw [if_pos h]
    exact List.filter_sublist acc.enhanced_conditions
  · rw [if_neg h]

theorem fold_remove_enhanced_sublist (names : List String) :
    ∀ acc : Creature,
    ((names.foldl (fun a nm => (remove_condition a nm).1) acc).enhanced_conditions).Sublist
      acc.enhanced_conditions := by
  induction names with
  | nil =>
    intro acc
    exact List.Sublist.refl _
  | cons m rest ih =>
    intro acc
    simp only [List.foldl_cons]
    exact (ih ((remove_condition acc m).1)).trans
      (remove_condition_enhanced_sublist acc m)

theorem sweep_creature_enhanced_sublist (now r : Int) (c : Creature) :
    (((sweep_creature now r c).1).enhanced_conditions).Sublist c.enhanced_conditions := by
  unfold sweep_creature
  exact fold_remove_enhanced_sublist _ c

/-- C7: a condition instance stored with duration kind ROUNDS, value N ≥ 1
and application round R survives every sweep whose effective round is at
most R + N - 1 and is removed (from the registry and from the legacy set)
by every sweep whose effective round is at least R + N; the world-level
update applies the per-creature sweep to every tracked creature after
advancing the global round. -/
theorem C7_rounds_duration_window (pre post : List Creature) (c : Creature)
    (n : String) (data : CondData) (N R rounds_passed cur now : Int)
    (hnd : nodup_keys c.enhanced_conditions)
    (hlow : ∀ k ∈ c.enhanced_conditions.map (fun p => p.1), py_lower k = k)
    (hl : dict_lookup n c.enhanced_conditions = some data)
    (hmem : c.conditions.contains n = true)
    (hdt : data.duration_type = DurationType.rounds)
    (hdv : data.duration_value = N) (har : data.applied_round = R) (hN : 1 ≤ N) :
    (update_condition_durations rounds_passed now cur (pre ++ c :: post)).1
      = (pre ++ c :: post).map (fun x =>
          (sweep_creature now
            (if 0 < rounds_passed then cur + rounds_passed else cur) x).1) ∧
    (update_condition_durations rounds_passed now cur (pre ++ c :: post)).2.1
      = (if 0 < rounds_passed then cur + rounds_passed else cur) ∧
    (∀ r2 : Int, r2 ≤ R + N - 1 →
      ((sweep_creature now r2 c).1).conditions.contains n = true ∧
      dict_lookup n ((sweep_creature now r2 c).1).enhanced_conditions = some data) ∧
    (∀ r2 : Int, R + N ≤ r2 →
      ((sweep_creature now r2 c).1).conditions.contains n = false ∧
      dict_lookup n ((sweep_creature now r2 c).1).enhanced_conditions = none) := by
  refine ⟨?_, ?_, ?_, ?_⟩
  · unfold update_condition_durations
    dsimp only
    rw [List.map_map]
    rfl
  · rfl
  · intro r2 hr2
    have hexp : is_condition_expired data now r2 = false := by
      unfold is_condition_expired
      rw [hdt]
      have : ¬(data.applied_round + data.duration_value ≤ r2) := by
        rw [hdv, har]
        omega
      simp [this]
    obtain ⟨h1, h2⟩ := sweep_creature_preserves hnd hlow hl hexp
    exact ⟨h1.trans hmem, h2⟩
  · intro r2 hr2
    have hexp : is_condition_expired data now r2 = true := by
      unfold is_condition_expired
      rw [hdt]
      have : data.applied_round + data.duration_value ≤ r2 := by
        rw [hdv, har]
        omega
      simp [this]
    exact sweep_creature_removes hnd hlow hl hmem hexp

theorem C7_witness :
    poison_data.duration_type = DurationType.rounds ∧
    poison_data.duration_value = 3 ∧ poison_data.applied_round = 2 ∧
    ((sweep_creature 0 4 poisoned_wiz).1).conditions.contains "poisoned" = true ∧
    ((sweep_creature 0 5 poisoned_wiz).1).conditions.contains "poisoned" = false ∧
    dict_lookup "poisoned" ((sweep_creature 0 5 poisoned_wiz).1).enhanced_conditions
      = none := by
  obtain ⟨_, _, h3, h4⟩ := C7_rounds_duration_window [] [] poisoned_wiz "poisoned"
    poison_data 3 2 0 0 0 (by decide) (by decide) (by decide) (by decide) (by decide)
    (by decide) (by decide) (by decide)
  exact ⟨by decide, by decide, by decide, (h3 4 (by decide)).1, (h4 5 (by decide)).1,
    (h4 5 (by decide)).2⟩

/-- C8: an instance with duration kind SAVE_ENDS, PERMANENT or
UNTIL_DISPELLED is never expired by the duration check, and a sweep at any
wall-clock time and round leaves the stored instance and the legacy
membership exactly as they were — so arbitrarily many sweeps with
arbitrary gaps leave it in place. -/
theorem C8_save_ends_never_expires (c : Creature) (n : String) (data : CondData)
    (now now2 r r2 : Int) (hnd : nodup_keys c.enhanced_conditions)
    (hlow : ∀ k ∈ c.enhanced_conditions.map (fun p => p.1), py_lower k = k)
    (hl : dict_lookup n c.enhanced_conditions = some data)
    (hdt : data.duration_type = DurationType.save_ends ∨
      data.duration_type = DurationType.permanent ∨
      data.duration_type = DurationType.until_dispelled) :
    is_condition_expired data now r = false ∧
    ((sweep_creature now r c).1).conditions.contains n = c.conditions.contains n ∧
    dict_lookup n ((sweep_creature now r c).1).enhanced_conditions = some data ∧
    dict_lookup n
      ((sweep_creature now2 r2 (sweep_creature now r c).1).1).enhanced_conditions
      = some data := by
  have hexp : ∀ t rr : Int, is_condition_expired data t rr = false := by
    intro t rr
    unfold is_condition_expired
    rcases hdt with h | h | h <;> rw [h]
  obtain ⟨h1, h2⟩ := sweep_creature_preserves hnd hlow hl (hexp now r)
  have hnd1 : nodup_keys ((sweep_creature now r c).1).enhanced_conditions := by
    unfold nodup_keys at hnd ⊢
    exact List.Nodup.sublist
      ((sweep_creature_enhanced_sublist now r c).map (fun p => p.1)) hnd
  have hlow1 : ∀ k ∈ ((sweep_creature now r c).1).enhanced_conditions.map
      (fun p => p.1), py_lower k = k := by
    intro k hk
    rcases List.mem_map.mp hk with ⟨p, hp, hfst⟩
    exact hlow k (hfst ▸ List.mem_map_of_mem _
      ((sweep_creature_enhanced_sublist now r c).subset hp))
  obtain ⟨_, h4⟩ := sweep_creature_preserves hnd1 hlow1 h2 (hexp now2 r2)
  exact ⟨hexp now r, h1, h2, h4⟩

theorem C8_witness :
    stunned_default_data.duration_type = DurationType.save_ends ∧
    is_condition_expired stunned_default_data 9999 9999 = false ∧
    ((sweep_creature 9999 9999 stunned_wiz).1).conditions.contains "stunned" = true ∧
    dict_lookup "stunned" ((sweep_creature 9999 9999 stunned_wiz).1).enhanced_conditions
      = some stunned_default_data := by
  obtain ⟨h1, h2, h3, _⟩ := C8_save_ends_never_expires stunned_wiz "stunned"
    stunned_default_data 9999 0 9999 0 (by decide) (by decide) (by decide)
    (Or.inl (by decide))
  exact ⟨by decide, h1, by rw [h2]; decide, h3⟩


/-- C9: the per-condition defaults store stunned and poisoned (added with
no explicit DC) as SAVE_ENDS with a save ability but save_dc unset; and an
end-of-turn save pass never rolls for nor removes any SAVE_ENDS instance
whose save_dc is unset — whatever the injected saving-throw oracle would
answer — so such an instance also never expires by duration and can only
leave through explicit removal or creature cleanup. -/
theorem C9_unset_dc_never_saved (c : Creature) (n : String) (data : CondData)
    (now r : Int) (save : String → Int → Bool)
    (hnd : nodup_keys c.enhanced_conditions)
    (hlow : ∀ k ∈ c.enhanced_conditions.map (fun p => p.1), py_lower k = k)
    (hl : dict_lookup n c.enhanced_conditions = some data)
    (hse : data.duration_type = DurationType.save_ends)
    (hdc : data.save_dc = none) :
    dict_lookup "stunned"
      ((add_condition (mk_creature "Wiz" true) [] "stunned"
        none none none none none 0 0).1).enhanced_conditions
      = some { duration_type := DurationType.save_ends, duration_value := 0,
               save_dc := none, save_ability := some "con",
               source_name := "Unknown", applied_time := 0, applied_round := 0 } ∧
    dict_lookup "poisoned"
      ((add_condition (mk_creature "Wiz" true) [] "poisoned"
        none none none none none 0 0).1).enhanced_conditions
      = some { duration_type := DurationType.save_ends, duration_value := 0,
               save_dc := none, save_ability := some "con",
               source_name := "Unknown", applied_time := 0, applied_round := 0 } ∧
    ((process_end_of_turn_saves c save).1).conditions.contains n
      = c.conditions.contains n ∧
    dict_lookup n ((process_end_of_turn_saves c save).1).enhanced_conditions
      = some data ∧
    is_condition_expired data now r = false := by
  obtain ⟨h1, h2⟩ := process_saves_preserves save hnd hlow hl hdc
  refine ⟨?_, ?_, h1, h2, ?_⟩
  · simp only [add_condition, add_condition_fuel.eq_def, apply_condition_effects.eq_def]
    decide
  · simp only [add_condition, add_condition_fuel.eq_def, apply_condition_effects.eq_def]
    decide
  unfold is_condition_expired
  rw [hse]

theorem C9_witness :
    nodup_keys stunned_wiz.enhanced_conditions ∧
    stunned_default_data.save_dc = none ∧
    ((process_end_of_turn_saves stunned_wiz (fun _ _ => true)).1).conditions.contains
      "stunned" = true ∧
    dict_lookup "stunned"
      ((process_end_of_turn_saves stunned_wiz (fun _ _ => true)).1).enhanced_conditions
      = some stunned_default_data := by
  obtain ⟨_, _, h3, h4, _⟩ := C9_unset_dc_never_saved stunned_wiz "stunned"
    stunned_default_data 0 0 (fun _ _ => true) (by decide) (by decide) (by decide)
    (by decide) (by decide)
  exact ⟨by decide, by decide, by rw [h3]; decide, h4⟩

/-- C10: remove_condition returns true exactly when the named condition is
present, and removing unconscious (after it was applied through the add
path, which auto-added incapacitated and prone) deletes only the
unconscious instance: incapacitated and prone both remain present. -/
theorem C10_remove_unconscious_keeps_implied (t0 : Creature) (nm : String)
    (target : Creature) (conc : ConcMap) (dt : Option DurationType)
    (dv dc : Option Int) (sa sn : Option String) (now r : Int) :
    (remove_condition t0 nm).2 = has_condition t0 nm ∧
    (remove_condition (add_condition target conc "unconscious" dt dv dc sa sn now r).1
      "unconscious").2 = true ∧
    has_condition
      (remove_condition (add_condition target conc "unconscious" dt dv dc sa sn now r).1
        "unconscious").1 "unconscious" = false ∧
    has_condition
      (remove_condition (add_condition target conc "unconscious" dt dv dc sa sn now r).1
        "unconscious").1 "incapacitated" = true ∧
    has_condition
      (remove_condition (add_condition target conc "unconscious" dt dv dc sa sn now r).1
        "unconscious").1 "prone" = true := by
  obtain ⟨hu, hi, hp⟩ := add_unconscious_all target conc dt dv dc sa sn now r
  unfold has_condition at hu hi hp
  rw [py_lower_unconscious] at hu
  rw [py_lower_incapacitated] at hi
  rw [py_lower_prone] at hp
  obtain ⟨hc, hd, hret⟩ := remove_condition_self py_lower_unconscious hu
  refine ⟨?_, hret, ?_, ?_, ?_⟩
  · unfold remove_condition has_condition
    by_cases h : t0.conditions.contains (py_lower nm) = true
    · rw [if_pos h, h]
    · rw [if_neg h]
      cases hcc : t0.conditions.contains (py_lower nm) with
      | false => rfl
      | true => exact absurd hcc h
  · unfold has_condition
    rw [py_lower_unconscious]
    exact hc
  · unfold has_condition
    rw [py_lower_incapacitated]
    rw [remove_condition_other_conditions
      (by rw [py_lower_unconscious]; decide)]
    exact hi
  · unfold has_condition
    rw [py_lower_prone]
    rw [remove_condition_other_conditions
      (by rw [py_lower_unconscious]; decide)]
    exact hp


end DSystem
